import Mathlib

set_option autoImplicit false

/-!
Shallow embedding of the `atomix/cache-storage` controller's status-reconciliation
logic (`pkg/controller/reconciler.go`), together with the get-or-create reconcile
steps for ConfigMap, Deployment and Service, and the cluster-config builder
`newClusterConfig`.

Modelling conventions:
- Kubernetes objects are plain structures; the store of Partition resources is a
  map from partition ordinal to the partition's `Status.Ready` flag.  The naming
  function `k8s.GetPartitionNamespacedName` is deterministic and injective in the
  ordinal (spec section 6), so partitions are keyed directly by ordinal.
- Go `int32` values are embedded as `Int` carrying int32-representable values;
  the arithmetic of the partition-range loop, where overflow is reachable from
  valid annotations, wraps explicitly through `wrap32`.  The shard annotation is
  parsed by a faithful model of `strconv.ParseInt(s, 0, 32)` including Go's
  base-0 prefixes and underscore rules.
- A `client.Get` has three outcomes: the object is found, it is not found, or the
  call fails transiently.  Transient failures of Get/Update calls are injected
  through a `Faults` record, mirroring the external store's nondeterminism.
- A reconciliation pass returns the updated store state, the list of writes that
  actually landed in the store, and an optional error.
-/

namespace CacheStorage

/-- Annotation key read by `k8s.GetClusterIDFromClusterAnnotations` and by
`newClusterConfig` (reconciler.go line 267). -/
def clusterAnnotationKey : String := "cloud.atomix.io/cluster"

/-- Annotation key for the database name (reconciler.go line 265). -/
def databaseAnnotationKey : String := "cloud.atomix.io/database"

/-- Go map lookup over an association list of annotations. -/
def lookupAnn : List (String × String) → String → Option String
  | [], _ => none
  | (k, v) :: rest, key => if k = key then some v else lookupAnn rest key

/-- The `Cluster` custom resource: `Spec.Partitions`, `Status.ReadyPartitions`,
its object metadata and its annotations. -/
structure Cluster where
  name : String
  namespaceName : String
  specPartitions : Int
  statusReadyPartitions : Int
  annotations : List (String × String)
deriving DecidableEq

/-- The slice of `appsv1.Deployment` status read by `reconcileStatus`
(reconciler.go line 234). -/
structure DepStatus where
  replicas : Int
  readyReplicas : Int
deriving DecidableEq

/-- Outcome of a `client.Get` call: object found, `IsNotFound` error, or a
transient store error. -/
inductive GetOutcome (α : Type) where
  | found (obj : α)
  | notFound
  | fail
deriving DecidableEq

/-- Errors a reconcile pass can surface.  `configError` models the errors built
from missing or malformed annotations; `storeError` a transient store failure;
`emptyNameUpdate` the API server rejecting a `Status().Update` on an object whose
metadata was never populated (empty name). -/
inductive PassError where
  | configError (msg : String)
  | storeError
  | emptyNameUpdate
deriving DecidableEq

/-- State of the external store as seen by one pass: for each partition ordinal,
`none` if no Partition resource with that name exists, `some r` if it exists with
`Status.Ready = r`; plus the stored Cluster resource. -/
structure World where
  parts : Int → Option Bool
  cluster : Cluster

/-- A write that landed in the store: a Partition `Status.Ready = true` update,
or the Cluster `Status.ReadyPartitions` update. -/
inductive Write where
  | partStatus (ordinal : Int)
  | clusterStatus (readyPartitions : Int)
deriving DecidableEq

/-- Transient-failure injection for the store calls made by one pass. -/
structure Faults where
  partGetFail : Int → Bool
  partUpdateFail : Int → Bool
  clusterUpdateFail : Bool

/-- The fault-free environment. -/
def noFaults : Faults where
  partGetFail := fun _ => false
  partUpdateFail := fun _ => false
  clusterUpdateFail := false

/-- Go strconv's `lower(c) = c | ('x' - 'X')`: forces the ASCII lower-case bit. -/
def goLower (c : Char) : Char := Char.ofNat (c.toNat ||| 32)

/-- The digit value of a character as in strconv's `ParseUint` loop: `'0'`-`'9'`
directly, letters through `lower`, anything else a syntax error. -/
def digitValue (c : Char) : Option Nat :=
  if '0' ≤ c ∧ c ≤ '9' then some (c.toNat - '0'.toNat)
  else if 'a' ≤ goLower c ∧ goLower c ≤ 'z' then some ((goLower c).toNat - 'a'.toNat + 10)
  else none

/-- Base detection of `ParseUint(s, 0, _)` after sign stripping: a `0b`/`0o`/`0x`
prefix when at least one character follows it, else a leading `0` means octal
(consuming the zero), else decimal. -/
def detectBase : List Char → Nat × List Char
  | ['0'] => (8, [])
  | '0' :: c :: rest =>
      if goLower c = 'b' ∧ rest ≠ [] then (2, rest)
      else if goLower c = 'o' ∧ rest ≠ [] then (8, rest)
      else if goLower c = 'x' ∧ rest ≠ [] then (16, rest)
      else (8, c :: rest)
  | cs => (10, cs)

/-- The digit loop of `ParseUint` in the base-0 call: underscores are skipped
(their placement is validated afterwards by `underscoreOK`), every other
character must be a digit below the base; returns the accumulated value and
whether an underscore was seen. -/
def runDigits (base : Nat) : List Char → Nat → Bool → Option (Nat × Bool)
  | [], acc, u => some (acc, u)
  | c :: rest, acc, u =>
      if c = '_' then runDigits base rest acc true
      else
        match digitValue c with
        | none => none
        | some d => if d < base then runDigits base rest (acc * base + d) u else none

/-- The scan of strconv's `underscoreOK`: `saw` is `'^'` at the start of the
number, `'0'` after a digit or a base prefix, `'_'` after an underscore and
`'!'` after any other character; an underscore must follow and be followed by a
digit. -/
def underscoreOKLoop (hex : Bool) : List Char → Char → Bool
  | [], saw => saw ≠ '_'
  | c :: rest, saw =>
      if ('0' ≤ c ∧ c ≤ '9') ∨ (hex ∧ 'a' ≤ goLower c ∧ goLower c ≤ 'f') then
        underscoreOKLoop hex rest '0'
      else if c = '_' then
        if saw ≠ '0' then false else underscoreOKLoop hex rest '_'
      else if saw = '_' then false
      else underscoreOKLoop hex rest '!'

/-- strconv's `underscoreOK` on the sign-stripped string (the sign is stripped
by `ParseInt` before `ParseUint` sees the string): underscores may appear only
between digits or between a base prefix and a digit. -/
def underscoreOK (cs : List Char) : Bool :=
  match cs with
  | '0' :: c :: rest =>
      if goLower c = 'b' ∨ goLower c = 'o' ∨ goLower c = 'x' then
        underscoreOKLoop (goLower c = 'x') rest '0'
      else underscoreOKLoop false cs '^'
  | _ => underscoreOKLoop false cs '^'

/-- Model of the external `strconv.ParseInt(s, 0, 32)` call (reconciler.go line
272): strip an optional sign, detect the base-0 prefix, run the digit loop with
underscore skipping, validate underscore placement, and apply `ParseInt`'s
32-bit cutoff (`un ≥ 2^31` positive, `un > 2^31` negative, is a range error);
`none` models a non-nil error.  The model accumulates the exact value where Go
uses uint64 with overflow checks: any overflowing input is far above the 32-bit
cutoff, so both report an error. -/
def parseInt32 (s : String) : Option Int :=
  match s.data with
  | [] => none
  | c0 :: rest0 =>
      let neg := c0 = '-'
      let cs := if c0 = '-' ∨ c0 = '+' then rest0 else c0 :: rest0
      if cs = [] then none
      else
        let bd := detectBase cs
        match runDigits bd.1 bd.2 0 false with
        | none => none
        | some (un, u) =>
            if u ∧ ¬ underscoreOK cs then none
            else if neg then
              if 2147483648 < un then none else some (-(un : Int))
            else if 2147483647 < un then none else some ((un : Int))

/-- Two's-complement wrap-around of Go `int32` arithmetic. -/
def wrap32 (n : Int) : Int := (n + 2147483648) % 4294967296 - 2147483648

/-- The sequence of partition ordinals visited by the loop
`for partitionID := (partitions*(clusterID-1))+1; partitionID <= partitions*clusterID; partitionID++`
shared by `reconcileStatus` (line 239) and `newClusterConfig` (line 288).
`Spec.Partitions` and the parsed cluster ID are int32, so every bound
computation wraps; when the wrapped lower bound exceeds the wrapped upper bound
the loop body never runs, otherwise the loop counts up from `lo` to `hi` (no
intermediate increment wraps below `hi`).  When `hi` is exactly 2147483647 with
`lo ≤ hi`, the Go increment wraps past int32Max and the source loop never
exits; the list then models the ordinals of that single first sweep, after
which the source is stuck and the pass never returns. -/
def ownedOrdinals (partitions clusterID : Int) : List Int :=
  let lo := wrap32 (wrap32 (partitions * wrap32 (clusterID - 1)) + 1)
  let hi := wrap32 (partitions * clusterID)
  (List.range (hi + 1 - lo).toNat).map (fun i : Nat => lo + (i : Int))

/-- Modelled from the spec: `k8s.GetClusterIDFromClusterAnnotations` lives in the
external `kubernetes-controller` module and is not part of this repository's
source.  Per the spec's annotation-reader interface it extracts the numeric
cluster-shard ID from the Cluster's annotations and fails with a configuration
error when the annotation is absent or non-numeric. -/
def GetClusterIDFromClusterAnnotations (c : Cluster) : Except PassError Int :=
  match lookupAnn c.annotations clusterAnnotationKey with
  | none => Except.error (PassError.configError "missing cluster annotation")
  | some s =>
      match parseInt32 s with
      | none => Except.error (PassError.configError "malformed cluster annotation")
      | some n => Except.ok n

/-- Outcome of the `client.Get` for the Partition with the given ordinal
(reconciler.go line 241). -/
def partGet (f : Faults) (parts : Int → Option Bool) (o : Int) : GetOutcome Bool :=
  if f.partGetFail o then GetOutcome.fail
  else
    match parts o with
    | some r => GetOutcome.found r
    | none => GetOutcome.notFound

/-- The readiness loop of `reconcileStatus` (reconciler.go lines 239-253), over
the list of owned ordinals.  Per iteration: Get the Partition; a non-NotFound
error aborts; then, since the (possibly zero-valued) object's `Status.Ready` is
checked, a found-and-ready partition is left alone, a found-but-unready one gets
`Status.Ready = true` persisted, and a not-found one leaves `partition` zero
valued with `Ready = false`, so the code sets `Ready = true` and calls
`Status().Update` on an object with empty metadata, which the store rejects. -/
def statusLoop (f : Faults) :
    (Int → Option Bool) → List Int → (Int → Option Bool) × List Write × Option PassError
  | parts, [] => (parts, [], none)
  | parts, o :: rest =>
    match partGet f parts o with
    | GetOutcome.fail => (parts, [], some PassError.storeError)
    | GetOutcome.found true => statusLoop f parts rest
    | GetOutcome.found false =>
        if f.partUpdateFail o then (parts, [], some PassError.storeError)
        else
          let parts2 : Int → Option Bool := fun x => if x = o then some true else parts x
          let r := statusLoop f parts2 rest
          (r.1, Write.partStatus o :: r.2.1, r.2.2)
    | GetOutcome.notFound => (parts, [], some PassError.emptyNameUpdate)

/-- Result of one readiness pass: the store afterwards, the writes that landed,
and the returned error if any. -/
structure PassResult where
  world : World
  log : List Write
  err : Option PassError

/-- `reconcileStatus` (reconciler.go lines 219-261).  `dep` is the outcome of the
Deployment Get: not-found returns nil with no writes, a transient failure is
returned.  Otherwise, when `Status.ReadyPartitions < Spec.Partitions` and the
Deployment's `ReadyReplicas == Replicas`, resolve the shard ID from annotations,
run the readiness loop over the owned ordinals, and on full success persist
`Status.ReadyPartitions = Spec.Partitions` on the Cluster. -/
def reconcileStatus (f : Faults) (dep : GetOutcome DepStatus) (w : World) : PassResult :=
  match dep with
  | GetOutcome.notFound => ⟨w, [], none⟩
  | GetOutcome.fail => ⟨w, [], some PassError.storeError⟩
  | GetOutcome.found d =>
    if w.cluster.statusReadyPartitions < w.cluster.specPartitions
        ∧ d.readyReplicas = d.replicas then
      match GetClusterIDFromClusterAnnotations w.cluster with
      | Except.error e => ⟨w, [], some e⟩
      | Except.ok clusterID =>
        match statusLoop f w.parts (ownedOrdinals w.cluster.specPartitions clusterID) with
        | (parts2, log, some e) => ⟨⟨parts2, w.cluster⟩, log, some e⟩
        | (parts2, log, none) =>
          if f.clusterUpdateFail then ⟨⟨parts2, w.cluster⟩, log, some PassError.storeError⟩
          else
            ⟨⟨parts2, { w.cluster with statusReadyPartitions := w.cluster.specPartitions }⟩,
              log ++ [Write.clusterStatus w.cluster.specPartitions], none⟩
    else ⟨w, [], none⟩

/-- `api.MemberConfig` as filled in by `newClusterConfig` (reconciler.go
lines 278-285). -/
structure MemberConfig where
  id : String
  host : String
  protocolPort : Int
  apiPort : Int
deriving DecidableEq

/-- `api.DatabaseId` (reconciler.go lines 293-296). -/
structure DatabaseId where
  name : String
  namespaceName : String
deriving DecidableEq

/-- `api.ClusterId` (reconciler.go lines 291-297). -/
structure ClusterId where
  id : Int
  databaseID : DatabaseId
deriving DecidableEq

/-- `api.PartitionId` (reconciler.go lines 289-298). -/
structure PartitionId where
  partition : Int
  clusterRef : ClusterId
deriving DecidableEq

/-- `api.ClusterConfig` (reconciler.go lines 302-305). -/
structure ClusterConfig where
  members : List MemberConfig
  partitions : List PartitionId
deriving DecidableEq

/-- The gRPC/API port constant (reconciler.go line 49). -/
def port : Int := 5678

/-- `newClusterConfig` (reconciler.go lines 264-306).  The database name is read
from the annotations with Go's map-read default (missing key yields `""`, no
error); the cluster annotation is required and parsed with
`strconv.ParseInt(s, 0, 32)`; the partition list is built by the shared
ownership loop. -/
def newClusterConfig (c : Cluster) : Except PassError ClusterConfig :=
  let database := (lookupAnn c.annotations databaseAnnotationKey).getD ""
  match lookupAnn c.annotations clusterAnnotationKey with
  | none => Except.error (PassError.configError "missing cluster annotation")
  | some clusterIDstr =>
    match parseInt32 clusterIDstr with
    | none => Except.error (PassError.configError "malformed cluster annotation")
    | some clusterID =>
      Except.ok
        { members :=
            [{ id := c.name,
               host := c.namespaceName ++ "." ++ c.name ++ ".svc.cluster.local",
               protocolPort := port, apiPort := port }],
          partitions :=
            (ownedOrdinals c.specPartitions clusterID).map fun o =>
              { partition := o,
                clusterRef :=
                  { id := clusterID,
                    databaseID := { name := database, namespaceName := c.namespaceName } } } }

/-- The ConfigMap built by `addConfigMap` (reconciler.go lines 150-158); the
jsonpb marshalling of the config into the data string is abstracted, the object
carries the `ClusterConfig` it would marshal. -/
structure ConfigMap where
  namespaceName : String
  name : String
  data : ClusterConfig
deriving DecidableEq

/-- The Deployment object as far as this reconciler reads it. -/
structure DeploymentObj where
  namespaceName : String
  name : String
  status : DepStatus
deriving DecidableEq

/-- The Service object as far as this reconciler reads it. -/
structure ServiceObj where
  namespaceName : String
  name : String
deriving DecidableEq

/-- A create request issued to the store by one of the add functions. -/
inductive Action where
  | createConfigMap (cm : ConfigMap)
  | createDeployment (namespaceName name : String)
  | createService (namespaceName name : String)
deriving DecidableEq

/-- `addConfigMap` (reconciler.go lines 136-163): build the cluster config,
marshal it, and create the ConfigMap named after the Cluster. -/
def addConfigMap (c : Cluster) : Except PassError Action :=
  (newClusterConfig c).map fun cfg =>
    Action.createConfigMap { namespaceName := c.namespaceName, name := c.name, data := cfg }

/-- `reconcileConfigMap` (reconciler.go lines 123-134): Get the ConfigMap named
after the Cluster; only when the Get fails with IsNotFound is `addConfigMap`
called; a found object is returned from untouched, and any other Get error is
returned. -/
def reconcileConfigMap (existing : GetOutcome ConfigMap) (c : Cluster) :
    Except PassError (Option Action) :=
  match existing with
  | GetOutcome.found _ => Except.ok none
  | GetOutcome.fail => Except.error PassError.storeError
  | GetOutcome.notFound => (addConfigMap c).map some

/-- `addDeployment` (reconciler.go lines 178-190): create a Deployment named
after the Cluster. -/
def addDeployment (c : Cluster) : Action :=
  Action.createDeployment c.namespaceName c.name

/-- `reconcileDeployment` (reconciler.go lines 165-176): same get-or-create
shape as `reconcileConfigMap`. -/
def reconcileDeployment (existing : GetOutcome DeploymentObj) (c : Cluster) :
    Except PassError (Option Action) :=
  match existing with
  | GetOutcome.found _ => Except.ok none
  | GetOutcome.fail => Except.error PassError.storeError
  | GetOutcome.notFound => Except.ok (some (addDeployment c))

/-- `addService` (reconciler.go lines 205-217): create a Service named after the
Cluster. -/
def addService (c : Cluster) : Action :=
  Action.createService c.namespaceName c.name

/-- `reconcileService` (reconciler.go lines 192-203): same get-or-create shape
as `reconcileConfigMap`. -/
def reconcileService (existing : GetOutcome ServiceObj) (c : Cluster) :
    Except PassError (Option Action) :=
  match existing with
  | GetOutcome.found _ => Except.ok none
  | GetOutcome.fail => Except.error PassError.storeError
  | GetOutcome.notFound => Except.ok (some (addService c))

/-! ### Helper lemmas about the ownership range -/

lemma wrap32_eq_self (n : Int) (h1 : -2147483648 ≤ n) (h2 : n ≤ 2147483647) :
    wrap32 n = n := by
  unfold wrap32
  omega

lemma ownedOrdinals_no_overflow (P C : Int) (hP : 1 ≤ P) (hC : 1 ≤ C)
    (hov : P * C ≤ 2147483647) :
    ownedOrdinals P C
      = (List.range P.toNat).map (fun i : Nat => P * (C - 1) + 1 + (i : Int)) := by
  have hPC : P * (C - 1) = P * C - P := by ring
  have h0 : 0 ≤ P * (C - 1) := mul_nonneg (by omega) (by omega)
  have hCle : C ≤ P * C := le_mul_of_one_le_left (by omega) hP
  simp only [ownedOrdinals]
  rw [wrap32_eq_self (C - 1) (by omega) (by omega)]
  rw [wrap32_eq_self (P * (C - 1)) (by omega) (by omega)]
  rw [wrap32_eq_self (P * (C - 1) + 1) (by omega) (by omega)]
  rw [wrap32_eq_self (P * C) (by omega) (by omega)]
  have harith : P * C + 1 - (P * (C - 1) + 1) = P := by ring
  rw [harith]

lemma mem_ownedOrdinals (P C x : Int) (hP : 1 ≤ P) (hC : 1 ≤ C)
    (hov : P * C ≤ 2147483647) :
    x ∈ ownedOrdinals P C ↔ P * (C - 1) + 1 ≤ x ∧ x ≤ P * C := by
  rw [ownedOrdinals_no_overflow P C hP hC hov]
  have hPC : P * C = P * (C - 1) + P := by ring
  rw [List.mem_map]
  constructor
  · rintro ⟨i, hi, rfl⟩
    rw [List.mem_range] at hi
    omega
  · rintro ⟨h1, h2⟩
    refine ⟨(x - (P * (C - 1) + 1)).toNat, ?_, ?_⟩
    · rw [List.mem_range]; omega
    · omega

/-! ### Helper lemmas about the readiness loop -/

lemma statusLoop_preserves_true (f : Faults) (os : List Int) :
    ∀ (parts : Int → Option Bool) (o : Int), parts o = some true →
      (statusLoop f parts os).1 o = some true := by
  induction os with
  | nil => intro parts o h; simpa [statusLoop] using h
  | cons a rest ih =>
    intro parts o h
    simp only [statusLoop]
    cases hg : partGet f parts a with
    | fail => simpa using h
    | notFound => simpa using h
    | found r =>
      cases r with
      | true => exact ih parts o h
      | false =>
        by_cases hu : f.partUpdateFail a = true
        · simpa [hu] using h
        · simp only [hu, if_false, Bool.false_eq_true]
          apply ih
          by_cases hoa : o = a <;> simp [hoa, h]

lemma statusLoop_parts_cases (f : Faults) (os : List Int) :
    ∀ (parts : Int → Option Bool) (o : Int),
      (statusLoop f parts os).1 o = parts o ∨ (statusLoop f parts os).1 o = some true := by
  induction os with
  | nil => intro parts o; simp [statusLoop]
  | cons a rest ih =>
    intro parts o
    simp only [statusLoop]
    cases hg : partGet f parts a with
    | fail => simp
    | notFound => simp
    | found r =>
      cases r with
      | true => exact ih parts o
      | false =>
        by_cases hu : f.partUpdateFail a = true
        · simp [hu]
        · simp only [hu, if_false, Bool.false_eq_true]
          rcases ih (fun x => if x = a then some true else parts x) o with h | h
          · by_cases hoa : o = a
            · right; simpa [hoa] using h
            · left; simpa [hoa] using h
          · right; exact h

lemma statusLoop_log_part (f : Faults) (os : List Int) :
    ∀ (parts : Int → Option Bool) (wr : Write), wr ∈ (statusLoop f parts os).2.1 →
      ∃ o, wr = Write.partStatus o ∧ o ∈ os := by
  induction os with
  | nil => intro parts wr h; simp [statusLoop] at h
  | cons a rest ih =>
    intro parts wr h
    simp only [statusLoop] at h
    cases hg : partGet f parts a with
    | fail => rw [hg] at h; simp at h
    | notFound => rw [hg] at h; simp at h
    | found r =>
      rw [hg] at h
      cases r with
      | true =>
        obtain ⟨o, rfl, ho⟩ := ih parts wr h
        exact ⟨o, rfl, by simp [ho]⟩
      | false =>
        by_cases hu : f.partUpdateFail a = true
        · simp [hu] at h
        · simp only [hu, if_false, Bool.false_eq_true, List.mem_cons] at h
          rcases h with rfl | h
          · exact ⟨a, rfl, by simp⟩
          · obtain ⟨o, rfl, ho⟩ := ih _ wr h
            exact ⟨o, rfl, by simp [ho]⟩

lemma statusLoop_log_ready (f : Faults) (os : List Int) :
    ∀ (parts : Int → Option Bool) (o : Int),
      Write.partStatus o ∈ (statusLoop f parts os).2.1 →
      (statusLoop f parts os).1 o = some true := by
  induction os with
  | nil => intro parts o h; simp [statusLoop] at h
  | cons a rest ih =>
    intro parts o h
    simp only [statusLoop] at h ⊢
    cases hg : partGet f parts a with
    | fail => rw [hg] at h; simp at h
    | notFound => rw [hg] at h; simp at h
    | found r =>
      rw [hg] at h
      cases r with
      | true => exact ih parts o h
      | false =>
        by_cases hu : f.partUpdateFail a = true
        · simp [hu] at h
        · simp only [hu, if_false, Bool.false_eq_true, List.mem_cons] at h ⊢
          rcases h with h | h
          · have : o = a := by simpa using h
            subst this
            exact statusLoop_preserves_true f rest _ o (by simp)
          · exact ih _ o h

lemma statusLoop_none_ready (f : Faults) (os : List Int) :
    ∀ (parts : Int → Option Bool), (statusLoop f parts os).2.2 = none →
      ∀ o ∈ os, (statusLoop f parts os).1 o = some true := by
  induction os with
  | nil => intro parts _ o ho; simp at ho
  | cons a rest ih =>
    intro parts herr o ho
    simp only [statusLoop] at herr ⊢
    cases hg : partGet f parts a with
    | fail => rw [hg] at herr; simp at herr
    | notFound => rw [hg] at herr; simp at herr
    | found r =>
      rw [hg] at herr
      cases r with
      | true =>
        rcases List.mem_cons.mp ho with rfl | ho'
        · have ha : parts o = some true := by
            unfold partGet at hg
            by_cases hf : f.partGetFail o = true
            · simp [hf] at hg
            · simp only [hf, if_false, Bool.false_eq_true] at hg
              cases hp : parts o <;> rw [hp] at hg <;> simp_all
          exact statusLoop_preserves_true f rest parts o ha
        · exact ih parts herr o ho'
      | false =>
        by_cases hu : f.partUpdateFail a = true
        · simp [hu] at herr
        · simp only [hu, if_false, Bool.false_eq_true] at herr ⊢
          rcases List.mem_cons.mp ho with rfl | ho'
          · exact statusLoop_preserves_true f rest _ o (by simp)
          · exact ih _ herr o ho'

lemma reconcileStatus_guard (f : Faults) (d : DepStatus) (w : World) (cid : Int)
    (hg : w.cluster.statusReadyPartitions < w.cluster.specPartitions
        ∧ d.readyReplicas = d.replicas)
    (hcid : GetClusterIDFromClusterAnnotations w.cluster = Except.ok cid) :
    reconcileStatus f (GetOutcome.found d) w =
      match statusLoop f w.parts (ownedOrdinals w.cluster.specPartitions cid) with
      | (parts2, log, some e) => ⟨⟨parts2, w.cluster⟩, log, some e⟩
      | (parts2, log, none) =>
        if f.clusterUpdateFail then ⟨⟨parts2, w.cluster⟩, log, some PassError.storeError⟩
        else
          ⟨⟨parts2, { w.cluster with statusReadyPartitions := w.cluster.specPartitions }⟩,
            log ++ [Write.clusterStatus w.cluster.specPartitions], none⟩ := by
  simp only [reconcileStatus]
  rw [if_pos hg]
  simp only [hcid]

lemma reconcileStatus_noGuard (f : Faults) (d : DepStatus) (w : World)
    (h : ¬(w.cluster.statusReadyPartitions < w.cluster.specPartitions
        ∧ d.readyReplicas = d.replicas)) :
    reconcileStatus f (GetOutcome.found d) w = ⟨w, [], none⟩ := by
  simp only [reconcileStatus]
  exact if_neg h

/-! ### Concrete inputs used by witnesses and counterexamples -/

/-- A store in which the single owned Partition resource does not exist yet. -/
def emptyStoreWorld : World where
  parts := fun _ => none
  cluster :=
    { name := "c", namespaceName := "ns", specPartitions := 1,
      statusReadyPartitions := 0,
      annotations := [(clusterAnnotationKey, "1")] }

/-- A store whose Cluster carries no annotations at all. -/
def noAnnWorld : World where
  parts := fun _ => none
  cluster :=
    { name := "c", namespaceName := "ns", specPartitions := 1,
      statusReadyPartitions := 0, annotations := [] }

/-- A fault environment in which every Partition Get fails transiently. -/
def allGetFail : Faults where
  partGetFail := fun _ => true
  partUpdateFail := fun _ => false
  clusterUpdateFail := false

/-- A store in which the single owned Partition exists but is not yet ready. -/
def oneUnreadyWorld : World where
  parts := fun o => if o = 1 then some false else none
  cluster :=
    { name := "c", namespaceName := "ns", specPartitions := 1,
      statusReadyPartitions := 0,
      annotations := [(clusterAnnotationKey, "1")] }

/-- A Cluster whose shard annotation makes the int32 loop bounds wrap: three
partitions per shard, shard ID 715827883, the store holding the Partition at
the formula-owned ordinal 2147483647 (int32-representable) not yet ready. -/
def overflowWorld : World where
  parts := fun o => if o = 2147483647 then some false else none
  cluster :=
    { name := "c", namespaceName := "ns", specPartitions := 3,
      statusReadyPartitions := 0,
      annotations := [(clusterAnnotationKey, "715827883")] }

/-! ### Claim theorems -/

/-- C2: evaluating the readiness pass at the failing input — shard ID 1, one
partition per shard, the owned Partition resource absent from the store, the
Deployment fully ready — shows the code does NOT skip the not-found Partition:
the `IsNotFound` Get error is tolerated but the zero-valued object then fails
the `Status.Ready` check, so the code sets `Ready = true` on it and calls
`Status().Update` on an object with empty metadata, and the pass returns that
error instead of skipping the ordinal. -/
theorem notFound_partition_attempts_update :
    reconcileStatus noFaults (GetOutcome.found ⟨1, 1⟩) emptyStoreWorld
      = ⟨emptyStoreWorld, [], some PassError.emptyNameUpdate⟩ := by
  rfl

/-- C10: the get-or-create reconciliation of ConfigMap, Deployment and Service
never modifies an existing object: whenever the Get finds the object, the
reconcile step returns with no create and no update, whatever the existing
object's contents are. -/
theorem get_or_create_leaves_existing (cm : ConfigMap) (dobj : DeploymentObj)
    (s : ServiceObj) (c : Cluster) :
    reconcileConfigMap (GetOutcome.found cm) c = Except.ok none
    ∧ reconcileDeployment (GetOutcome.found dobj) c = Except.ok none
    ∧ reconcileService (GetOutcome.found s) c = Except.ok none :=
  ⟨rfl, rfl, rfl⟩

/-- C4: whenever the Deployment's ReadyReplicas differs from its Replicas, or
the Cluster's ReadyPartitions has already reached Spec.Partitions, the readiness
pass performs no write at all: the store is returned untouched, the write log is
empty and no error is raised. -/
theorem no_trigger_no_writes (f : Faults) (d : DepStatus) (w : World)
    (h : d.readyReplicas ≠ d.replicas
        ∨ w.cluster.specPartitions ≤ w.cluster.statusReadyPartitions) :
    reconcileStatus f (GetOutcome.found d) w = ⟨w, [], none⟩ := by
  have hnc : ¬(w.cluster.statusReadyPartitions < w.cluster.specPartitions
      ∧ d.readyReplicas = d.replicas) := by
    rintro ⟨h1, h2⟩
    rcases h with h | h
    · exact h h2
    · omega
  simp only [reconcileStatus]
  exact if_neg hnc

/-- C4 witness: the no-write theorem at a Deployment with 1 of 2 replicas ready
over the concrete example world. -/
theorem no_trigger_no_writes_witness :
    ((2 : Int) ≠ (1 : Int)
      ∨ emptyStoreWorld.cluster.specPartitions ≤ emptyStoreWorld.cluster.statusReadyPartitions)
    ∧ reconcileStatus noFaults (GetOutcome.found ⟨2, 1⟩) emptyStoreWorld
        = ⟨emptyStoreWorld, [], none⟩ :=
  ⟨Or.inl (by norm_num),
    no_trigger_no_writes noFaults ⟨2, 1⟩ emptyStoreWorld (Or.inl (by norm_num))⟩

/-- C7: when the trigger condition holds but the shard-ID annotation is absent
or non-numeric, the readiness pass returns a configuration error with no write
landing in the store; `newClusterConfig` likewise fails for such a Cluster. -/
theorem missing_annotation_config_error (f : Faults) (d : DepStatus) (w : World)
    (hg1 : w.cluster.statusReadyPartitions < w.cluster.specPartitions)
    (hg2 : d.readyReplicas = d.replicas)
    (hann : lookupAnn w.cluster.annotations clusterAnnotationKey = none
        ∨ ∃ s, lookupAnn w.cluster.annotations clusterAnnotationKey = some s
            ∧ parseInt32 s = none) :
    (∃ msg, reconcileStatus f (GetOutcome.found d) w
        = ⟨w, [], some (PassError.configError msg)⟩)
    ∧ (∃ msg, newClusterConfig w.cluster = Except.error (PassError.configError msg)) := by
  have hid : ∃ msg, GetClusterIDFromClusterAnnotations w.cluster
      = Except.error (PassError.configError msg) := by
    unfold GetClusterIDFromClusterAnnotations
    rcases hann with h | ⟨s, hs, hp⟩
    · exact ⟨"missing cluster annotation", by simp [h]⟩
    · exact ⟨"malformed cluster annotation", by simp [hs, hp]⟩
  obtain ⟨msg, hmsg⟩ := hid
  constructor
  · refine ⟨msg, ?_⟩
    simp only [reconcileStatus]
    rw [if_pos ⟨hg1, hg2⟩]
    simp [hmsg]
  · unfold newClusterConfig
    rcases hann with h | ⟨s, hs, hp⟩
    · exact ⟨"missing cluster annotation", by simp [h]⟩
    · exact ⟨"malformed cluster annotation", by simp [hs, hp]⟩

/-- C7 witness: a Cluster with no annotations at all, one partition per shard,
ready Deployment: the pass returns a configuration error and no writes. -/
theorem missing_annotation_config_error_witness :
    ((0 : Int) < 1 ∧ (1 : Int) = (1 : Int)
      ∧ lookupAnn ([] : List (String × String)) clusterAnnotationKey = none)
    ∧ ((∃ msg, reconcileStatus noFaults (GetOutcome.found ⟨1, 1⟩) noAnnWorld
          = ⟨noAnnWorld, [], some (PassError.configError msg)⟩)
      ∧ (∃ msg, newClusterConfig noAnnWorld.cluster
          = Except.error (PassError.configError msg))) :=
  ⟨⟨by norm_num, rfl, rfl⟩,
    missing_annotation_config_error noFaults ⟨1, 1⟩ noAnnWorld (by decide) rfl
      (Or.inl rfl)⟩

/-- C3: if the readiness loop fails (a non-not-found Partition lookup error, or
a Partition status persist error), the pass returns that error: the Partition
updates that already landed keep `Ready = true` (no rollback), the Cluster
resource is left untouched and no Cluster write is logged; conversely a Cluster
status write appears in the log only when every ordinal was processed without
error, and it sets `ReadyPartitions = Spec.Partitions`. -/
theorem loop_error_aborts_pass (f : Faults) (d : DepStatus) (w : World) (cid : Int)
    (hg1 : w.cluster.statusReadyPartitions < w.cluster.specPartitions)
    (hg2 : d.readyReplicas = d.replicas)
    (hcid : GetClusterIDFromClusterAnnotations w.cluster = Except.ok cid) :
    (∀ e, (statusLoop f w.parts (ownedOrdinals w.cluster.specPartitions cid)).2.2 = some e →
      reconcileStatus f (GetOutcome.found d) w
        = ⟨⟨(statusLoop f w.parts (ownedOrdinals w.cluster.specPartitions cid)).1, w.cluster⟩,
            (statusLoop f w.parts (ownedOrdinals w.cluster.specPartitions cid)).2.1, some e⟩
      ∧ (∀ o, Write.partStatus o
            ∈ (statusLoop f w.parts (ownedOrdinals w.cluster.specPartitions cid)).2.1 →
          (statusLoop f w.parts (ownedOrdinals w.cluster.specPartitions cid)).1 o = some true))
    ∧ (∀ n, Write.clusterStatus n ∈ (reconcileStatus f (GetOutcome.found d) w).log →
        (statusLoop f w.parts (ownedOrdinals w.cluster.specPartitions cid)).2.2 = none
        ∧ n = w.cluster.specPartitions) := by
  have hguard := reconcileStatus_guard f d w cid ⟨hg1, hg2⟩ hcid
  constructor
  · intro e he
    refine ⟨?_, fun o ho =>
      statusLoop_log_ready f (ownedOrdinals w.cluster.specPartitions cid) w.parts o ho⟩
    rcases hL : statusLoop f w.parts (ownedOrdinals w.cluster.specPartitions cid)
      with ⟨p2, lg, er⟩
    rw [hL] at he hguard
    obtain rfl : er = some e := he
    exact hguard
  · intro n hn
    rw [hguard] at hn
    rcases hL : statusLoop f w.parts (ownedOrdinals w.cluster.specPartitions cid)
      with ⟨p2, lg, er⟩
    rw [hL] at hn
    have hpart : ∀ wr ∈ lg, ∃ o, wr = Write.partStatus o := by
      intro wr hwr
      obtain ⟨o, hoeq, _⟩ :=
        statusLoop_log_part f (ownedOrdinals w.cluster.specPartitions cid) w.parts wr
          (by rw [hL]; exact hwr)
      exact ⟨o, hoeq⟩
    cases er with
    | some e =>
      exfalso
      obtain ⟨o, hoeq⟩ := hpart (Write.clusterStatus n) hn
      exact Write.noConfusion hoeq
    | none =>
      refine ⟨rfl, ?_⟩
      cases hcf : f.clusterUpdateFail with
      | true =>
        exfalso
        rw [hcf] at hn
        obtain ⟨o, hoeq⟩ := hpart (Write.clusterStatus n) hn
        exact Write.noConfusion hoeq
      | false =>
        rw [hcf] at hn
        rcases List.mem_append.mp hn with h | h
        · exfalso
          obtain ⟨o, hoeq⟩ := hpart (Write.clusterStatus n) h
          exact Write.noConfusion hoeq
        · simpa using h

/-- C3 witness: the loop-error theorem at a world whose single owned Partition
Get fails transiently: the pass returns the store error with no writes and the
Cluster untouched. -/
theorem loop_error_aborts_pass_witness :
    (emptyStoreWorld.cluster.statusReadyPartitions < emptyStoreWorld.cluster.specPartitions
      ∧ (1 : Int) = (1 : Int)
      ∧ GetClusterIDFromClusterAnnotations emptyStoreWorld.cluster = Except.ok 1)
    ∧ ((∀ e, (statusLoop allGetFail emptyStoreWorld.parts
            (ownedOrdinals emptyStoreWorld.cluster.specPartitions 1)).2.2 = some e →
        reconcileStatus allGetFail (GetOutcome.found ⟨1, 1⟩) emptyStoreWorld
          = ⟨⟨(statusLoop allGetFail emptyStoreWorld.parts
                  (ownedOrdinals emptyStoreWorld.cluster.specPartitions 1)).1,
                emptyStoreWorld.cluster⟩,
              (statusLoop allGetFail emptyStoreWorld.parts
                  (ownedOrdinals emptyStoreWorld.cluster.specPartitions 1)).2.1, some e⟩
        ∧ (∀ o, Write.partStatus o
              ∈ (statusLoop allGetFail emptyStoreWorld.parts
                  (ownedOrdinals emptyStoreWorld.cluster.specPartitions 1)).2.1 →
            (statusLoop allGetFail emptyStoreWorld.parts
                (ownedOrdinals emptyStoreWorld.cluster.specPartitions 1)).1 o = some true))
      ∧ (∀ n, Write.clusterStatus n
            ∈ (reconcileStatus allGetFail (GetOutcome.found ⟨1, 1⟩) emptyStoreWorld).log →
          (statusLoop allGetFail emptyStoreWorld.parts
              (ownedOrdinals emptyStoreWorld.cluster.specPartitions 1)).2.2 = none
          ∧ n = emptyStoreWorld.cluster.specPartitions)) :=
  ⟨⟨by decide, rfl, by rfl⟩,
    loop_error_aborts_pass allGetFail ⟨1, 1⟩ emptyStoreWorld 1 (by decide) rfl (by rfl)⟩

/-- C5: the readiness pass is idempotent — a second run on the state produced by
a successful first run, against the same Deployment status, performs no writes
and changes nothing, whatever faults the second run's environment would inject
into calls that are never made. -/
theorem second_run_noop (f f2 : Faults) (dep : GetOutcome DepStatus) (w : World)
    (h : (reconcileStatus f dep w).err = none) :
    reconcileStatus f2 dep ((reconcileStatus f dep w).world)
      = ⟨(reconcileStatus f dep w).world, [], none⟩ := by
  cases dep with
  | notFound => rfl
  | fail => exact Option.noConfusion h
  | found d =>
    by_cases hg : w.cluster.statusReadyPartitions < w.cluster.specPartitions
        ∧ d.readyReplicas = d.replicas
    · cases hcidE : GetClusterIDFromClusterAnnotations w.cluster with
      | error e =>
        exfalso
        have herr : reconcileStatus f (GetOutcome.found d) w = ⟨w, [], some e⟩ := by
          simp only [reconcileStatus]
          rw [if_pos hg]
          simp [hcidE]
        rw [herr] at h
        exact Option.noConfusion h
      | ok cid =>
        have hguard := reconcileStatus_guard f d w cid hg hcidE
        rcases hL : statusLoop f w.parts (ownedOrdinals w.cluster.specPartitions cid)
          with ⟨p2, lg, er⟩
        rw [hL] at hguard
        cases er with
        | some e =>
          exfalso
          rw [hguard] at h
          exact Option.noConfusion h
        | none =>
          cases hcf : f.clusterUpdateFail with
          | true =>
            exfalso
            rw [hcf] at hguard
            rw [hguard] at h
            exact Option.noConfusion h
          | false =>
            rw [hcf] at hguard
            rw [hguard]
            apply reconcileStatus_noGuard
            intro hcon
            exact lt_irrefl _ hcon.1
    · have h1 := reconcileStatus_noGuard f d w hg
      rw [h1]
      exact reconcileStatus_noGuard f2 d w hg

/-- C5 witness: a successful first run over a world with one unready owned
Partition; the second run is a no-op. -/
theorem second_run_noop_witness :
    (reconcileStatus noFaults (GetOutcome.found ⟨1, 1⟩) oneUnreadyWorld).err = none
    ∧ reconcileStatus noFaults (GetOutcome.found ⟨1, 1⟩)
        ((reconcileStatus noFaults (GetOutcome.found ⟨1, 1⟩) oneUnreadyWorld).world)
      = ⟨(reconcileStatus noFaults (GetOutcome.found ⟨1, 1⟩) oneUnreadyWorld).world,
          [], none⟩ :=
  ⟨rfl, second_run_noop noFaults noFaults (GetOutcome.found ⟨1, 1⟩) oneUnreadyWorld rfl⟩

/-- C6 counterexample: at shard annotation `"715827883"` with
`Spec.Partitions = 3` the int32 loop bounds wrap (lower bound 2147483647, upper
bound wrapped to −2147483647), so the readiness loop runs zero times and the
pass advances `ReadyPartitions` to `Spec.Partitions` although the Partition at
the formula-owned ordinal `3*(715827883−1)+1 = 2147483647` — an
int32-representable name that a real store can hold — exists and is not ready,
refuting "reaching Spec.Partitions exactly when all owned partitions are
ready". -/
theorem readiness_monotone_overflow_cex :
    3 * (715827883 - 1) + 1 = (2147483647 : Int)
    ∧ overflowWorld.parts 2147483647 = some false
    ∧ (reconcileStatus noFaults (GetOutcome.found ⟨1, 1⟩)
          overflowWorld).world.cluster.statusReadyPartitions
        = overflowWorld.cluster.specPartitions
    ∧ (reconcileStatus noFaults (GetOutcome.found ⟨1, 1⟩)
          overflowWorld).world.parts 2147483647 = some false
    ∧ (reconcileStatus noFaults (GetOutcome.found ⟨1, 1⟩) overflowWorld).err = none := by
  refine ⟨by norm_num, by rfl, by rfl, by rfl, by rfl⟩

/-- C6 (amended): invariants preserved by every readiness pass — a Partition's
ready flag is only ever left alone or set to true (never reset),
`ReadyPartitions` is monotonically non-decreasing, and the Cluster is either
untouched or advanced to `ReadyPartitions = Spec.Partitions` by a logged
cluster write; whenever the cluster write happens, then — provided the shard's
range stays within int32 (`Spec.Partitions ≥ 1`, shard ID ≥ 1, product within
int32, so the loop enumerates the full formula range) — every partition ordinal
of the contiguous owned range `[(P*(C-1))+1, P*C]` is ready in the resulting
store. -/
theorem readiness_monotone (f : Faults) (dep : GetOutcome DepStatus) (w : World) (cid : Int)
    (hcid : GetClusterIDFromClusterAnnotations w.cluster = Except.ok cid) :
    (∀ o, (reconcileStatus f dep w).world.parts o = w.parts o
        ∨ (reconcileStatus f dep w).world.parts o = some true)
    ∧ w.cluster.statusReadyPartitions
        ≤ (reconcileStatus f dep w).world.cluster.statusReadyPartitions
    ∧ ((reconcileStatus f dep w).world.cluster = w.cluster
        ∨ ((reconcileStatus f dep w).world.cluster.statusReadyPartitions
              = w.cluster.specPartitions
            ∧ Write.clusterStatus w.cluster.specPartitions ∈ (reconcileStatus f dep w).log))
    ∧ (1 ≤ w.cluster.specPartitions → 1 ≤ cid →
        w.cluster.specPartitions * cid ≤ 2147483647 →
        ∀ n, Write.clusterStatus n ∈ (reconcileStatus f dep w).log →
          ∀ o : Int, w.cluster.specPartitions * (cid - 1) + 1 ≤ o →
            o ≤ w.cluster.specPartitions * cid →
            (reconcileStatus f dep w).world.parts o = some true) := by
  cases dep with
  | notFound =>
    exact ⟨fun o => Or.inl rfl, le_refl _, Or.inl rfl,
      fun _ _ _ n hn => absurd hn (List.not_mem_nil _)⟩
  | fail =>
    exact ⟨fun o => Or.inl rfl, le_refl _, Or.inl rfl,
      fun _ _ _ n hn => absurd hn (List.not_mem_nil _)⟩
  | found d =>
    by_cases hg : w.cluster.statusReadyPartitions < w.cluster.specPartitions
        ∧ d.readyReplicas = d.replicas
    · have hguard := reconcileStatus_guard f d w cid hg hcid
      rcases hL : statusLoop f w.parts (ownedOrdinals w.cluster.specPartitions cid)
        with ⟨p2, lg, er⟩
      rw [hL] at hguard
      have hparts : ∀ o, p2 o = w.parts o ∨ p2 o = some true := by
        intro o
        have hc := statusLoop_parts_cases f (ownedOrdinals w.cluster.specPartitions cid)
          w.parts o
        rw [hL] at hc
        exact hc
      have hlogpart : ∀ wr ∈ lg, ∃ o, wr = Write.partStatus o := by
        intro wr hwr
        obtain ⟨o, hoeq, _⟩ :=
          statusLoop_log_part f (ownedOrdinals w.cluster.specPartitions cid) w.parts wr
            (by rw [hL]; exact hwr)
        exact ⟨o, hoeq⟩
      cases er with
      | some e =>
        rw [hguard]
        refine ⟨hparts, le_refl _, Or.inl rfl, ?_⟩
        intro hP hC hov n hn o h1 h2
        obtain ⟨o', ho'⟩ := hlogpart _ hn
        exact Write.noConfusion ho'
      | none =>
        cases hcf : f.clusterUpdateFail with
        | true =>
          rw [hcf] at hguard
          rw [hguard]
          refine ⟨hparts, le_refl _, Or.inl rfl, ?_⟩
          intro hP hC hov n hn o h1 h2
          obtain ⟨o', ho'⟩ := hlogpart _ hn
          exact Write.noConfusion ho'
        | false =>
          rw [hcf] at hguard
          rw [hguard]
          have hall : ∀ o ∈ ownedOrdinals w.cluster.specPartitions cid, p2 o = some true := by
            intro o ho
            have hr := statusLoop_none_ready f (ownedOrdinals w.cluster.specPartitions cid)
              w.parts (by rw [hL]) o ho
            rw [hL] at hr
            exact hr
          refine ⟨hparts, le_of_lt hg.1, Or.inr ⟨rfl, ?_⟩, ?_⟩
          · exact List.mem_append.mpr (Or.inr (by simp))
          · intro hP hC hov n hn o h1 h2
            exact hall o ((mem_ownedOrdinals w.cluster.specPartitions cid o hP hC hov).mpr
              ⟨h1, h2⟩)
    · have h1 := reconcileStatus_noGuard f d w hg
      rw [h1]
      exact ⟨fun o => Or.inl rfl, le_refl _, Or.inl rfl,
        fun _ _ _ n hn => absurd hn (List.not_mem_nil _)⟩

/-- C6 witness: the invariant theorem applied to the fault-free pass over the
world with one unready owned Partition. -/
theorem readiness_monotone_witness :
    GetClusterIDFromClusterAnnotations oneUnreadyWorld.cluster = Except.ok 1
    ∧ ((∀ o, (reconcileStatus noFaults (GetOutcome.found ⟨1, 1⟩) oneUnreadyWorld).world.parts o
            = oneUnreadyWorld.parts o
          ∨ (reconcileStatus noFaults (GetOutcome.found ⟨1, 1⟩) oneUnreadyWorld).world.parts o
            = some true)
      ∧ oneUnreadyWorld.cluster.statusReadyPartitions
          ≤ (reconcileStatus noFaults (GetOutcome.found ⟨1, 1⟩)
              oneUnreadyWorld).world.cluster.statusReadyPartitions
      ∧ ((reconcileStatus noFaults (GetOutcome.found ⟨1, 1⟩) oneUnreadyWorld).world.cluster
            = oneUnreadyWorld.cluster
          ∨ ((reconcileStatus noFaults (GetOutcome.found ⟨1, 1⟩)
                  oneUnreadyWorld).world.cluster.statusReadyPartitions
                = oneUnreadyWorld.cluster.specPartitions
              ∧ Write.clusterStatus oneUnreadyWorld.cluster.specPartitions
                  ∈ (reconcileStatus noFaults (GetOutcome.found ⟨1, 1⟩) oneUnreadyWorld).log))
      ∧ (1 ≤ oneUnreadyWorld.cluster.specPartitions → 1 ≤ (1 : Int) →
          oneUnreadyWorld.cluster.specPartitions * 1 ≤ 2147483647 →
          ∀ n, Write.clusterStatus n
              ∈ (reconcileStatus noFaults (GetOutcome.found ⟨1, 1⟩) oneUnreadyWorld).log →
            ∀ o : Int, oneUnreadyWorld.cluster.specPartitions * (1 - 1) + 1 ≤ o →
              o ≤ oneUnreadyWorld.cluster.specPartitions * 1 →
              (reconcileStatus noFaults (GetOutcome.found ⟨1, 1⟩)
                  oneUnreadyWorld).world.parts o = some true)) :=
  ⟨by rfl, readiness_monotone noFaults (GetOutcome.found ⟨1, 1⟩) oneUnreadyWorld 1 (by rfl)⟩

end CacheStorage
